import Mathlib

/-!
Verification of the feather HTTP router (github.com/pchchv/feather).

This file shallowly embeds the router's core: the per-method radix trie
(`node`, from `node.go`), its insertion algorithm (`addRoute` /
`insertChild` / `incrementChildPriority`), its lookup algorithm (`find`),
the request-dispatch state machine (`serveHTTP` / `redirect` from the mux
file), and the request-scoped parameter accessors (`urlParams.Get`,
`requestVars.URLParam`, `RequestVars`).

Modelling conventions:
- Go strings are byte strings indexed by position; paths in scope are
  ASCII, so we model them as `List Char` (`Str`).
- `http.HandlerFunc` values are opaque to the router; registered handlers
  are modelled by `Nat` identifiers.  Handlers synthesized by the
  dispatcher (redirects, 404/405/OPTIONS defaults) and middleware-wrapped
  handlers are modelled by the inductive `HF`, so that wrapping is
  observable.
- Go `panic` during registration is modelled by `Except Str` with the
  panic message as the error value.
- The Go `for { ... continue walk ... }` loops descend strictly into the
  tree or strictly along the pattern; we thread an explicit fuel that is
  amply large for every execution considered, so the translations stay
  total.  Fuel exhaustion yields a distinguished error/miss that never
  coincides with a source panic message.
-/

/-- Byte strings, the type of Go `string` in this embedding (ASCII scope). -/
abbrev Str := List Char

/-- Shorthand to write a `Str` literal. -/
def lit (s : String) : Str := s.toList

/-- Go slice `s[a:b]`. -/
def extractL (l : Str) (a b : Nat) : Str := (l.drop a).take (b - a)

/-- `nodeType` from node.go: `isRoot`, `hasParams`, `matchesAny`; `zero`
is the Go zero value of the field (no constant names it). -/
inductive NType where
  | zero
  | isRoot
  | hasParams
  | matchesAny
deriving DecidableEq, Repr

/-- The radix-trie node of node.go: `path`, `indices`, `children`,
`handler`, `priority`, `nType`, `wildChild`. -/
inductive Node where
  | mk (path : Str) (indices : Str) (children : List Node)
       (handler : Option Nat) (priority : Nat) (nType : NType)
       (wildChild : Bool)

def Node.path : Node → Str
  | .mk p _ _ _ _ _ _ => p

def Node.indices : Node → Str
  | .mk _ i _ _ _ _ _ => i

def Node.children : Node → List Node
  | .mk _ _ c _ _ _ _ => c

def Node.handler : Node → Option Nat
  | .mk _ _ _ h _ _ _ => h

def Node.priority : Node → Nat
  | .mk _ _ _ _ p _ _ => p

def Node.nType : Node → NType
  | .mk _ _ _ _ _ t _ => t

def Node.wildChild : Node → Bool
  | .mk _ _ _ _ _ _ w => w

def Node.withPath : Node → Str → Node
  | .mk _ i c h p t w, p' => .mk p' i c h p t w

def Node.withIndices : Node → Str → Node
  | .mk p _ c h pr t w, i' => .mk p i' c h pr t w

def Node.withChildren : Node → List Node → Node
  | .mk p i _ h pr t w, c' => .mk p i c' h pr t w

def Node.withHandler : Node → Option Nat → Node
  | .mk p i c _ pr t w, h' => .mk p i c h' pr t w

def Node.withPriority : Node → Nat → Node
  | .mk p i c h _ t w, pr' => .mk p i c h pr' t w

def Node.withNType : Node → NType → Node
  | .mk p i c h pr _ w, t' => .mk p i c h pr t' w

def Node.withWildChild : Node → Bool → Node
  | .mk p i c h pr t _, w' => .mk p i c h pr t w'

/-- The Go zero value `node{}`. -/
def emptyNode : Node := .mk [] [] [] none 0 .zero false

/-- `existingParams.check` (node.go): error on a duplicate parameter name
along one registered path, otherwise record the name. -/
def existCheck (existing : List Str) (param : Str) (fullPath : Str) :
    Except Str (List Str) :=
  if param ∈ existing then
    .error (lit "duplicate param name '" ++ param ++
            lit "' detected for route '" ++ fullPath ++ lit "'")
  else .ok (param :: existing)

/-- The inner scan of `insertChild` locating the wildcard end: offset to
the first `/` (or end of the segment); `.error` if the segment holds a
second `:`/`*`. -/
def wildEndOffset : Str → Except Unit Nat
  | [] => .ok 0
  | ch :: rest =>
    if ch = '/' then .ok 0
    else if ch = ':' ∨ ch = '*' then .error ()
    else (wildEndOffset rest).map (· + 1)

/-- `countParams`'s loop (node.go): count `:`/`*` bytes, stopping once the
count reaches 255. -/
def countParamsLoop : Str → Nat → Nat
  | [], acc => acc
  | c :: rest, acc =>
    if acc < 255 then
      countParamsLoop rest (if c = ':' ∨ c = '*' then acc + 1 else acc)
    else acc

/-- `countParams` (node.go): the capped count, a panic once it is ≥ 255. -/
def countParams (path : Str) : Except Str Nat :=
  let nn := countParamsLoop path 0
  if 255 ≤ nn then
    .error (lit "too many parameters defined in path, max is 255")
  else .ok nn

/-- Value of a hexadecimal digit, as `url.QueryUnescape` reads one. -/
def hexVal (c : Char) : Option Nat :=
  if '0' ≤ c ∧ c ≤ '9' then some (c.toNat - '0'.toNat)
  else if 'a' ≤ c ∧ c ≤ 'f' then some (c.toNat - 'a'.toNat + 10)
  else if 'A' ≤ c ∧ c ≤ 'F' then some (c.toNat - 'A'.toNat + 10)
  else none

/-- `url.QueryUnescape` on the byte level: `%xx` decodes, `+` becomes a
space; a malformed escape is an error. -/
def queryUnescape : Str → Except Str Str
  | [] => .ok []
  | '%' :: a :: b :: rest =>
    match hexVal a, hexVal b with
    | some ha, some hb =>
      (queryUnescape rest).map (Char.ofNat (ha * 16 + hb) :: ·)
    | _, _ => .error (lit "invalid URL escape")
  | '%' :: rest =>
    match rest with
    | _ => .error (lit "invalid URL escape")
  | '+' :: rest => (queryUnescape rest).map (' ' :: ·)
  | c :: rest => (queryUnescape rest).map (c :: ·)

/-- Swap two positions of a child list (used by the priority reorder). -/
def swapAt (l : List Node) (a b : Nat) : List Node :=
  match l.get? a, l.get? b with
  | some x, some y => (l.set a y).set b x
  | _, _ => l

/-- The move-to-front loop of `incrementChildPriority`: swap the child at
`newPos` leftwards past siblings of strictly lower priority. -/
def icpMove (prio : Nat) : List Node → Nat → List Node × Nat
  | children, 0 => (children, 0)
  | children, newPos + 1 =>
    match children.get? newPos with
    | some prev =>
      if prev.priority < prio then
        icpMove prio (swapAt children newPos (newPos + 1)) newPos
      else (children, newPos + 1)
    | none => (children, newPos + 1)

/-- `incrementChildPriority` (node.go): bump `children[pos].priority`,
stably move it toward the front, and rebuild `indices` to stay in sync;
returns the child's new position. -/
def incrementChildPriority (n : Node) (pos : Nat) : Node × Nat :=
  match n.children.get? pos with
  | none => (n, pos)
  | some child =>
    let prio := child.priority + 1
    let children0 := n.children.set pos (child.withPriority prio)
    let (children1, newPos) := icpMove prio children0 pos
    let indices1 :=
      if newPos ≠ pos then
        n.indices.take newPos ++ extractL n.indices pos (pos + 1) ++
        extractL n.indices newPos pos ++ n.indices.drop (pos + 1)
      else n.indices
    ((n.withIndices indices1).withChildren children1, newPos)

/-- The scanning loop of `insertChild` (node.go): walk the pattern from
byte `i` with `offset` bytes already materialized, building the chain of
param/catch-all nodes below `n`; `numParams` counts the wildcards left. -/
def insertChildGo (fullPath : Str) (handler : Nat) :
    Nat → Nat → Nat → Nat → List Str → Str → Node → Except Str Node
  | 0, _, _, _, _, _, _ => .error (lit "embedding: insertChild out of fuel")
  | fuel + 1, i, offset, numParams, existing, path, n =>
    if numParams = 0 then
      match (if n.nType = .hasParams then
               existCheck existing (path.drop offset) fullPath
             else .ok existing) with
      | .error e => .error e
      | .ok _ =>
        .ok ((n.withPath (path.drop offset)).withHandler (some handler))
    else
      match path.get? i with
      | none => .error (lit "embedding: index out of range")
      | some c =>
        if c = ':' ∨ c = '*' then
          match wildEndOffset (path.drop (i + 1)) with
          | .error _ =>
            .error (lit "only one wildcard per path segment is allowed, has: '" ++
                    path.drop i ++ lit "' in path '" ++ fullPath ++ lit "'")
          | .ok off =>
            let e := i + 1 + off
            if n.children.isEmpty = false then
              .error (lit "wildcard route '" ++ extractL path i e ++
                      lit "' conflicts with existing children in path '" ++
                      fullPath ++ lit "'")
            else if c = ':' then
              if e - i < 2 then
                .error (lit "wildcards must be named with a non-empty name in path '" ++
                        fullPath ++ lit "'")
              else
                let nPath := if 0 < i then extractL path offset i else n.path
                let offset1 := if 0 < i then i else offset
                if e < path.length then
                  match existCheck existing (extractL path offset1 e) fullPath with
                  | .error err => .error err
                  | .ok existing1 =>
                    match insertChildGo fullPath handler fuel (i + 1) e
                        (numParams - 1) existing1 path
                        (.mk [] [] [] none 1 .zero false) with
                    | .error err => .error err
                    | .ok gc =>
                      let child : Node :=
                        .mk (extractL path offset1 e) [] [gc] none 1 .hasParams false
                      .ok ((((n.withPath nPath).withChildren [child]).withWildChild true))
                else
                  match insertChildGo fullPath handler fuel (i + 1) offset1
                      (numParams - 1) existing path
                      (.mk [] [] [] none 1 .hasParams false) with
                  | .error err => .error err
                  | .ok child =>
                    .ok ((((n.withPath nPath).withChildren [child]).withWildChild true))
            else
              if e ≠ path.length ∨ 1 < numParams then
                .error (lit "character after the * symbol is not permitted, path '" ++
                        fullPath ++ lit "'")
              else if n.path ≠ [] ∧ n.path.getLast? = some '/' then
                .error (lit "catch-all conflicts with existing handle for the path segment root in path '" ++
                        fullPath ++ lit "'")
              else if i = 0 then .error (lit "embedding: index out of range")
              else if path.get? (i - 1) ≠ some '/' then
                .error (lit "no / before catch-all in path '" ++ fullPath ++ lit "'")
              else
                let i1 := i - 1
                let child2 : Node :=
                  .mk (path.drop i1) [] [] (some handler) 1 .matchesAny false
                let child1 : Node := .mk [] [] [child2] none 1 .matchesAny true
                .ok (((n.withPath (extractL path offset i1)).withChildren
                        [child1]).withIndices ['/'])
        else
          insertChildGo fullPath handler fuel (i + 1) offset numParams existing path n

/-- `insertChild` (node.go), entered at byte 0 of `path`. -/
def insertChildTop (numParams : Nat) (existing : List Str) (path fullPath : Str)
    (handler : Nat) (n : Node) : Except Str Node :=
  insertChildGo fullPath handler (path.length + 2) 0 0 numParams existing path n

/-- Longest common prefix of the remaining pattern and the node fragment
(the byte-comparison loop heading `addRoute`'s `walk`). -/
def commonPrefixLen : Str → Str → Nat
  | a :: as, b :: bs => if a = b then commonPrefixLen as bs + 1 else 0
  | _, _ => 0

/-- Position of the first occurrence of `c` in `indices` (the child-index
scan of `addRoute`). -/
def indexOfChar : Str → Char → Option Nat
  | [], _ => none
  | i :: rest, c => if c = i then some 0 else (indexOfChar rest c).map (· + 1)

/-- The `walk` loop of `addRoute` (node.go): split the edge at the common
prefix, then descend into the wildcard child, the `/`-after-param child, a
matching static child, or materialize the rest via `insertChild`.  Each
Go `continue walk` is a recursive call on the child, reassembled into its
parent afterwards. -/
def addRouteGo (fullPath : Str) (handler : Nat) :
    Nat → List Str → Nat → Str → Node → Except Str Node
  | 0, _, _, _, _ => .error (lit "embedding: addRoute out of fuel")
  | fuel + 1, existing, numParams, path, n =>
    let i := commonPrefixLen path n.path
    let n :=
      if i < n.path.length then
        let child : Node :=
          .mk (n.path.drop i) n.indices n.children n.handler
              (n.priority - 1) .zero n.wildChild
        .mk (path.take i) ((n.path.drop i).take 1) [child] none
            n.priority n.nType false
      else n
    if i < path.length then
      let path1 := path.drop i
      if n.wildChild then
        match n.children with
        | [] => .error (lit "embedding: wildcard node without child")
        | child :: rest =>
          let child := child.withPriority (child.priority + 1)
          match existCheck existing child.path fullPath with
          | .error e => .error e
          | .ok existing1 =>
            if child.path.length ≤ path1.length ∧
               path1.take child.path.length = child.path ∧
               (path1.length ≤ child.path.length ∨
                path1.get? child.path.length = some '/') then
              match addRouteGo fullPath handler fuel existing1
                  (numParams - 1) path1 child with
              | .error e => .error e
              | .ok child1 => .ok (n.withChildren (child1 :: rest))
            else
              .error (lit "path segment '" ++ path1 ++
                      lit "' conflicts with existing wildcard '" ++ child.path ++
                      lit "' in path '" ++ fullPath ++ lit "'")
      else
        match path1 with
        | [] => .error (lit "embedding: empty remainder")
        | c :: _ =>
          if n.nType = .hasParams ∧ c = '/' ∧ n.children.length = 1 then
            match n.children with
            | child :: rest =>
              match addRouteGo fullPath handler fuel existing numParams path1
                  (child.withPriority (child.priority + 1)) with
              | .error e => .error e
              | .ok child1 => .ok (n.withChildren (child1 :: rest))
            | [] => .error (lit "embedding: missing child")
          else
            match indexOfChar n.indices c with
            | some pos =>
              let (n2, newPos) := incrementChildPriority n pos
              match n2.children.get? newPos with
              | none => .error (lit "embedding: missing child")
              | some child =>
                match addRouteGo fullPath handler fuel existing numParams
                    path1 child with
                | .error e => .error e
                | .ok child1 =>
                  .ok (n2.withChildren (n2.children.set newPos child1))
            | none =>
              if c ≠ ':' ∧ c ≠ '*' then
                let n2 :=
                  (n.withIndices (n.indices ++ [c])).withChildren
                    (n.children ++ [emptyNode])
                let (n3, newPos) := incrementChildPriority n2 (n2.indices.length - 1)
                match n3.children.get? newPos with
                | none => .error (lit "embedding: missing child")
                | some child =>
                  match insertChildTop numParams existing path1 fullPath
                      handler child with
                  | .error e => .error e
                  | .ok child1 =>
                    .ok (n3.withChildren (n3.children.set newPos child1))
              else
                insertChildTop numParams existing path1 fullPath handler n
    else
      if i = path.length then
        if n.handler ≠ none then
          .error (lit "handlers are already registered for path '" ++
                  fullPath ++ lit "'")
        else .ok (n.withHandler (some handler))
      else .ok n

/-- `addRoute` (node.go): normalize the empty pattern to `/`, percent-decode,
bump the root priority, count the dynamic tokens, then either walk the
non-empty tree or materialize the pattern into the fresh root.  Returns the
updated root and the pattern's parameter count. -/
def addRoute (root : Node) (path0 : Str) (handler : Nat) :
    Except Str (Node × Nat) :=
  let path1 := if path0 = [] then lit "/" else path0
  match queryUnescape path1 with
  | .error e =>
    .error (lit "Qery Unescape Error on path '" ++ path1 ++ lit "': " ++ e)
  | .ok path =>
    let fullPath := path
    let root := root.withPriority (root.priority + 1)
    match countParams path with
    | .error e => .error e
    | .ok numParams =>
      if root.path ≠ [] ∨ root.children.isEmpty = false then
        match addRouteGo fullPath handler (path.length * 2 + 8) [] numParams
            path root with
        | .error e => .error e
        | .ok n => .ok (n, numParams)
      else
        match insertChildTop numParams [] path fullPath handler root with
        | .error e => .error e
        | .ok n => .ok (n.withNType .isRoot, numParams)

/-- Registering a list of (pattern, handler) routes on one method's tree,
the way `routeGroup.handle` drives `tree.addRoute` per registration. -/
def registerRoutes (routes : List (Str × Nat)) : Except Str Node :=
  routes.foldlM (fun t r => (addRoute t r.1 r.2).map Prod.fst) emptyNode

/-- The tree a successful registration sequence produces (the empty root
if a registration panicked; every use below registers successfully). -/
def trieOf (routes : List (Str × Nat)) : Node :=
  (registerRoutes routes).toOption.getD emptyNode

/-- Boolean success of a registration. -/
def exceptOk {ε α : Type} : Except ε α → Bool
  | .ok _ => true
  | .error _ => false

/-- Captured URL parameters: the key/value pairs of one `requestVars`. -/
abbrev Params := List (Str × Str)

/-- `WildcardParam`, the reserved catch-all key (mux constants). -/
def wildcardParam : Str := lit "*wildcard"

/-- The param-end scan of `find`: length of the path up to the next `/`. -/
def segEnd : Str → Nat
  | [] => 0
  | c :: rest => if c = '/' then 0 else segEnd rest + 1

/-- The child-index scan of `find`: child whose index byte equals the next
path byte (indices and children walked in lockstep). -/
def pickChild : Str → List Node → Char → Option Node
  | _, [], _ => none
  | [], _, _ => none
  | i :: irest, ch :: chrest, c =>
    if c = i then some ch else pickChild irest chrest c

/-- The `walk` loop of `find` (the lookup algorithm): consume the node
fragment, then follow the static child picked by index byte, or the single
wildcard child, capturing a parameter (param node) or the rest of the path
(catch-all node) into the pooled buffer `rv`, which is acquired lazily on
the first capture. -/
def findAux : Nat → Node → Str → Option Params → Option Nat × Option Params
  | 0, _, _, rv => (none, rv)
  | fuel + 1, n, path, rv =>
    if n.path.length < path.length then
      if path.take n.path.length = n.path then
        let path1 := path.drop n.path.length
        if n.wildChild = false then
          match path1 with
          | [] => (none, rv)
          | c :: _ =>
            match pickChild n.indices n.children c with
            | some child => findAux fuel child path1 rv
            | none => (none, rv)
        else
          match n.children with
          | [] => (none, rv)
          | child :: _ =>
            match child.nType with
            | .hasParams =>
              let e := segEnd path1
              let rv1 := some ((rv.getD []) ++ [(child.path.drop 1, path1.take e)])
              if e < path1.length then
                match child.children with
                | gc :: _ => findAux fuel gc (path1.drop e) rv1
                | [] => (none, rv1)
              else
                match child.handler with
                | some h => (some h, rv1)
                | none => (none, rv1)
            | .matchesAny =>
              let rv1 := some ((rv.getD []) ++ [(wildcardParam, path1.drop 1)])
              (child.handler, rv1)
            | _ => (none, rv)
      else (none, rv)
    else
      if path = n.path then
        match n.handler with
        | some h => (some h, rv)
        | none => (none, rv)
      else (none, rv)

/-- `node.find`: handler and captured parameters for a concrete path, or a
miss.  The pooled buffer starts unacquired (`none`). -/
def findTop (fuel : Nat) (n : Node) (path : Str) : Option Nat × Option Params :=
  findAux fuel n path none

/-- Handler values as the dispatcher sees them: a registered handler id, the
synthesized redirect closure (`http.Redirect(w, r, to, code)`), the three
default fallback handlers of the mux file, or a middleware-wrapped handler
(how a test middleware marks what it wrapped). -/
inductive HF where
  | handlerId (n : Nat)
  | redirectBase (code : Nat) (dest : Str)
  | default404
  | default405
  | defaultOPTIONS
  | wrapped (tag : Nat) (inner : HF)
deriving DecidableEq, Repr

/-- The mux (`Mux` of the mux file): per-method trees, the route-group
middleware chain, the three fallback handlers, and the three dispatch
flags.  The Go method→tree map is modelled as an association list. -/
structure MuxM where
  trees : List (String × Node)
  middleware : List (HF → HF)
  http404 : HF
  http405 : HF
  httpOPTIONS : HF
  redirectTrailingSlash : Bool
  handleMethodNotAllowed : Bool
  automaticallyHandleOPTIONS : Bool

/-- `p.trees[r.Method]` (nil when the method has no tree). -/
def lookupTree : List (String × Node) → String → Option Node
  | [], _ => none
  | (m, t) :: rest, method => if m = method then some t else lookupTree rest method

/-- `New()` defaults with a given set of registered trees: trailing-slash
redirect on, method-not-allowed and automatic OPTIONS off, default
fallback handlers, no middleware. -/
def muxNew (trees : List (String × Node)) : MuxM :=
  { trees := trees
    middleware := []
    http404 := .default404
    http405 := .default405
    httpOPTIONS := .defaultOPTIONS
    redirectTrailingSlash := true
    handleMethodNotAllowed := false
    automaticallyHandleOPTIONS := false }

/-- Composition result of the reversed-index middleware loop shared by
`redirect`, `Register404`, `RegisterMethodNotAllowed` and
`RegisterAutomaticOPTIONS`: `h = m[i](h)` for `i = len-1 … 0`. -/
def mwLoop (mws : List (HF → HF)) : Nat → HF → HF
  | 0, h => h
  | j + 1, h => mwLoop mws j ((mws.getD j id) h)

/-- First-registered-outermost composition of a middleware chain. -/
def wrapMiddleware : List (HF → HF) → HF → HF
  | [], h => h
  | m :: rest, h => m (wrapMiddleware rest h)

/-- `Mux.redirect` (mux file): build the redirect closure with status 301
for GET and 308 (`http.StatusPermanentRedirect`) otherwise, then run the
mux middleware loop over it. -/
def muxRedirect (p : MuxM) (method : String) (dest : Str) : HF :=
  let code := if method = "GET" then 301 else 308
  mwLoop p.middleware p.middleware.length (HF.redirectBase code dest)

/-- `strings.ToLower` restricted to ASCII (all paths in scope). -/
def asciiToLower (c : Char) : Char :=
  if 'A' ≤ c ∧ c ≤ 'Z' then Char.ofNat (c.toNat + 32) else c

/-- The trailing-slash toggle of `serveHTTP`: drop a trailing `/`,
otherwise append one. -/
def toggleSlash (lc : Str) : Str :=
  if lc.getLast? = some '/' then lc.dropLast else lc ++ ['/']

/-- What one dispatch decides: the handler finally invoked, the parameter
buffer attached to the request context (`r.WithContext(rv.ctx)` when the
initial lookup acquired one), and the `Allow` header values added. -/
structure DispatchResult where
  invoked : HF
  attached : Option Params
  allow : List String
deriving Repr

/-- The `Allow` scan of the automatic-OPTIONS block: for `*` every other
registered method, otherwise every other method whose tree matches the
path; `OPTIONS` is always appended. -/
def allowScanOptions (p : MuxM) (method : String) (path : Str) (fuel : Nat) :
    List String :=
  if path = lit "*" then
    ((p.trees.filter (fun t => t.1 ≠ "OPTIONS")).map (fun t => t.1)) ++ ["OPTIONS"]
  else
    ((p.trees.filter (fun t =>
        t.1 ≠ method ∧ t.1 ≠ "OPTIONS" ∧
        (findTop fuel t.2 path).1.isSome = true)).map (fun t => t.1)) ++ ["OPTIONS"]

/-- The 405 scan: every other method whose tree matches the path. -/
def allowScan405 (p : MuxM) (method : String) (path : Str) (fuel : Nat) :
    List String :=
  (p.trees.filter (fun t =>
      t.1 ≠ method ∧ (findTop fuel t.2 path).1.isSome = true)).map (fun t => t.1)

/-- The fall-through of `serveHTTP` once path matching (and recovery) has
failed: automatic OPTIONS, then method-not-allowed, then the 404 handler.
`rv` is the buffer from the initial lookup, still attached on every one of
these exits. -/
def serveFallback (p : MuxM) (method : String) (path : Str) (rv : Option Params)
    (fuel : Nat) : DispatchResult :=
  if p.automaticallyHandleOPTIONS = true ∧ method = "OPTIONS" then
    { invoked := p.httpOPTIONS, attached := rv
      allow := allowScanOptions p method path fuel }
  else if p.handleMethodNotAllowed = true then
    let ms := allowScan405 p method path fuel
    if ms.isEmpty = false then
      { invoked := p.http405, attached := rv, allow := ms }
    else
      { invoked := p.http404, attached := rv, allow := [] }
  else
    { invoked := p.http404, attached := rv, allow := [] }

/-- `serveHTTP` (mux file), up to the invocation of the chosen handler:
select the method tree, look the path up, on a miss (with trailing-slash
recovery on and a path longer than one byte) retry the lowercased path and
then that path with its trailing slash toggled — answering a successful
retry with the synthesized redirect handler — and otherwise fall back to
OPTIONS/405/404 handling. -/
def serveDecision (p : MuxM) (method : String) (path : Str) (fuel : Nat) :
    DispatchResult :=
  match lookupTree p.trees method with
  | none => serveFallback p method path none fuel
  | some tree =>
    match findTop fuel tree path with
    | (some h, rv) => { invoked := HF.handlerId h, attached := rv, allow := [] }
    | (none, rv) =>
      if p.redirectTrailingSlash = true ∧ 1 < path.length then
        let lc := path.map asciiToLower
        if lc ≠ path ∧ (findTop fuel tree lc).1.isSome = true then
          { invoked := muxRedirect p method lc, attached := rv, allow := [] }
        else
          let lc2 := toggleSlash lc
          if (findTop fuel tree lc2).1.isSome = true then
            { invoked := muxRedirect p method lc2, attached := rv, allow := [] }
          else serveFallback p method path rv fuel
      else serveFallback p method path rv fuel

/-- The tail of `serveHTTP` (attach the context, invoke the handler, then
`p.pool.Put(rv)`): the handler may panic, modelled by `Except`; the result
records whether the `Put` statement executed.  The `Put` is written after
the call, not deferred, so a panic propagates before it runs. -/
def serveEpilogue (rv : Option Params) (h : Option Params → Except Str Unit) :
    Except Str Bool := do
  _ ← h rv
  pure rv.isSome

/-- Whether the pool `Put` ran on a given epilogue outcome. -/
def poolPutRan : Except Str Bool → Bool
  | .ok b => b
  | .error _ => false

/-- `urlParams.Get` (mux file): first value bound to the key, empty string
otherwise. -/
def urlParamsGet : Params → Str → Str
  | [], _ => []
  | (k, v) :: rest, key => if k = key then v else urlParamsGet rest key

/-- `requestVars` (request_vars.go): the request-scoped variable record. -/
structure ReqVarsM where
  params : Params
  formParsed : Bool

/-- `requestVars.URLParam` (request_vars.go). -/
def ReqVarsM.URLParam (r : ReqVarsM) (pname : Str) : Str :=
  urlParamsGet r.params pname

/-- `RequestVars` (helpers.go): the context value when dispatch attached
one, else a fresh `new(requestVars)` with no parameters. -/
def RequestVarsOf : Option ReqVarsM → ReqVarsM
  | none => { params := [], formParsed := false }
  | some rv => rv

/-! ## Helper lemmas -/

/-- The spec's measure for claim C8: the number of dynamic-token markers
(`:` and `*` bytes) in a pattern, stated from the spec's words and
uncapped, to compare with `countParams`. -/
def specDynTokenCount (path : Str) : Nat :=
  path.countP (fun c => c == ':' || c == '*')

theorem countParamsLoop_min (path : Str) :
    ∀ acc, acc ≤ 255 →
      countParamsLoop path acc = min (acc + specDynTokenCount path) 255 := by
  induction path with
  | nil =>
    intro acc h
    simp [countParamsLoop, specDynTokenCount, Nat.min_eq_left h]
  | cons c rest ih =>
    intro acc h
    rcases Nat.lt_or_ge acc 255 with hlt | hge
    · by_cases hc : c = ':' ∨ c = '*'
      · have hstep : countParamsLoop (c :: rest) acc = countParamsLoop rest (acc + 1) := by
          simp [countParamsLoop, hlt, hc]
        rw [hstep, ih (acc + 1) hlt]
        have hcnt : specDynTokenCount (c :: rest) = specDynTokenCount rest + 1 := by
          simp [specDynTokenCount, List.countP_cons]
          rcases hc with hc | hc <;> simp [hc]
        rw [hcnt]
        omega
      · have hstep : countParamsLoop (c :: rest) acc = countParamsLoop rest acc := by
          simp [countParamsLoop, hlt, hc]
        rw [hstep, ih acc h]
        have hcnt : specDynTokenCount (c :: rest) = specDynTokenCount rest := by
          push_neg at hc
          simp [specDynTokenCount, List.countP_cons, hc.1, hc.2]
        rw [hcnt]
    · have hacc : acc = 255 := le_antisymm h hge
      subst hacc
      have hstep : countParamsLoop (c :: rest) 255 = 255 := by
        simp [countParamsLoop]
      rw [hstep]
      omega

theorem countParamsError_iff (path : Str) :
    exceptOk (countParams path) = false ↔ 255 ≤ specDynTokenCount path := by
  have h := countParamsLoop_min path 0 (by omega)
  simp only [Nat.zero_add] at h
  simp only [countParams, h]
  by_cases hle : 255 ≤ min (specDynTokenCount path) 255
  · rw [if_pos hle]
    constructor
    · intro _; omega
    · intro _; rfl
  · rw [if_neg hle]
    constructor
    · intro hfalse; simp [exceptOk] at hfalse
    · intro hge; exact absurd (by omega : 255 ≤ min (specDynTokenCount path) 255) hle

theorem urlParamsGet_not_mem (l : Params) (name : Str)
    (h : ∀ pr ∈ l, pr.1 ≠ name) : urlParamsGet l name = [] := by
  induction l with
  | nil => rfl
  | cons p rest ih =>
    obtain ⟨k, v⟩ := p
    have hk : k ≠ name := h (k, v) (by simp)
    simp only [urlParamsGet, if_neg hk]
    exact ih (fun pr hpr => h pr (by simp [hpr]))

theorem urlParamsGet_mem_nodup (l : Params) (name v : Str)
    (hnd : (l.map Prod.fst).Nodup) (hmem : (name, v) ∈ l) :
    urlParamsGet l name = v := by
  induction l with
  | nil => simp at hmem
  | cons p rest ih =>
    obtain ⟨k, w⟩ := p
    rw [List.map_cons, List.nodup_cons] at hnd
    rcases List.mem_cons.mp hmem with heq | hmem1
    · obtain ⟨hk, hv⟩ := Prod.mk.injEq .. ▸ heq
      subst hk; subst hv
      simp [urlParamsGet]
    · have hk : k ≠ name := by
        intro hkname
        subst hkname
        exact hnd.1 (List.mem_map.mpr ⟨(k, v), hmem1, rfl⟩)
      simp only [urlParamsGet, if_neg hk]
      exact ih hnd.2 hmem1

theorem wrapMiddleware_append (xs ys : List (HF → HF)) (h : HF) :
    wrapMiddleware (xs ++ ys) h = wrapMiddleware xs (wrapMiddleware ys h) := by
  induction xs with
  | nil => rfl
  | cons m rest ih => simp [wrapMiddleware, ih]

theorem mwLoop_append_frozen (mws : List (HF → HF)) (m : HF → HF) :
    ∀ j, j ≤ mws.length → ∀ h, mwLoop (mws ++ [m]) j h = mwLoop mws j h := by
  intro j
  induction j with
  | zero => intro _ _; rfl
  | succ j ih =>
    intro hj h
    simp only [mwLoop]
    rw [List.getD_append _ _ _ _ (by omega)]
    exact ih (by omega) _

theorem mwLoop_eq_wrap (mws : List (HF → HF)) (h : HF) :
    mwLoop mws mws.length h = wrapMiddleware mws h := by
  induction mws using List.reverseRecOn generalizing h with
  | nil => rfl
  | append_singleton ms m ih =>
    have hlen : (ms ++ [m]).length = ms.length + 1 := by simp
    rw [hlen]
    simp only [mwLoop]
    have hget : (ms ++ [m]).getD ms.length id = m := by
      rw [List.getD_append_right _ _ _ _ (Nat.le_refl _)]
      simp
    rw [hget, mwLoop_append_frozen ms m ms.length (Nat.le_refl _), ih,
        wrapMiddleware_append]
    rfl

/-! ## Claims -/

/-- Claim C1: registering the static pattern `/user/new` and the parameter
pattern `/user/:id` for one method fails at the second `addRoute` call in
either registration order — the wildcard/static conflict panics at build
time — while each first registration alone succeeds. -/
theorem static_param_conflict_both_orders :
    registerRoutes [(lit "/user/new", 1), (lit "/user/:id", 2)] =
      .error (lit "wildcard route ':id' conflicts with existing children in path '/user/:id'")
    ∧ registerRoutes [(lit "/user/:id", 1), (lit "/user/new", 2)] =
      .error (lit "path segment 'new' conflicts with existing wildcard ':id' in path '/user/new'")
    ∧ exceptOk (registerRoutes [(lit "/user/new", 1)]) = true
    ∧ exceptOk (registerRoutes [(lit "/user/:id", 1)]) = true :=
  ⟨rfl, rfl, rfl, rfl⟩

/-- Claim C2: after registering `/user/:id`, `find` on `/user/42` returns
that route's handler and exactly the one captured parameter `id = "42"`. -/
theorem param_capture_roundtrip :
    exceptOk (registerRoutes [(lit "/user/:id", 7)]) = true ∧
    findTop 100 (trieOf [(lit "/user/:id", 7)]) (lit "/user/42") =
      (some 7, some [(lit "id", lit "42")]) :=
  ⟨rfl, rfl⟩

/-- Claim C3: after registering the catch-all `/static/*`, `find` on
`/static/css/a.css` returns the catch-all handler and one parameter under
the reserved key `*wildcard` whose value is `css/a.css` (the remainder of
the path including slashes). -/
theorem catchall_capture_roundtrip :
    exceptOk (registerRoutes [(lit "/static/*", 9)]) = true ∧
    findTop 100 (trieOf [(lit "/static/*", 9)]) (lit "/static/css/a.css") =
      (some 9, some [(wildcardParam, lit "css/a.css")]) ∧
    wildcardParam = lit "*wildcard" :=
  ⟨rfl, rfl, rfl⟩

/-- Claim C7: registering a pattern that repeats a parameter name along one
root-to-terminal path (`/a/:id/b/:id`) fails registration with the
duplicate-parameter panic. -/
theorem duplicate_param_name_rejected :
    registerRoutes [(lit "/a/:id/b/:id", 1)] =
      .error (lit "duplicate param name ':id' detected for route '/a/:id/b/:id'") :=
  rfl

set_option maxRecDepth 4096 in
/-- Counterexample to claim C8 as stated: a pattern with exactly 255
dynamic tokens — a count that does not exceed 255 — is nevertheless
rejected by registration with the parameter-count panic. -/
theorem countParams_rejects_exactly_255 :
    specDynTokenCount (lit "/" ++ List.replicate 255 ':') = 255 ∧
    addRoute emptyNode (lit "/" ++ List.replicate 255 ':') 1 =
      .error (lit "too many parameters defined in path, max is 255") :=
  ⟨rfl, rfl⟩

/-- Claim C8 (amended): `countParams` faults exactly when the pattern's
dynamic-token count (`:` and `*` markers) is at least 255; patterns with at
most 254 dynamic tokens are never rejected for parameter count. -/
theorem countParams_error_iff_count_ge_255 (path : Str) :
    exceptOk (countParams path) = false ↔ 255 ≤ specDynTokenCount path :=
  countParamsError_iff path

/-- Claim C9: `URLParam` returns the value captured under a name during the
route match (parameter names being unique along a matched path), the empty
string when no parameter with that name was captured, and the empty string
on the fresh variable set that `RequestVars` yields for a request with no
attached parameters. -/
theorem urlparam_lookup_spec (rv : ReqVarsM) (name v : Str) :
    ((rv.params.map Prod.fst).Nodup → (name, v) ∈ rv.params →
        rv.URLParam name = v)
    ∧ ((∀ pr ∈ rv.params, pr.1 ≠ name) → rv.URLParam name = [])
    ∧ (RequestVarsOf none).URLParam name = [] :=
  ⟨fun h1 h2 => urlParamsGet_mem_nodup rv.params name v h1 h2,
   fun h => urlParamsGet_not_mem rv.params name h,
   rfl⟩

/-- Witness for claim C9 at a concrete captured set: `id` resolves to
`42`, an uncaptured name resolves to the empty string. -/
theorem urlparam_lookup_spec_witness :
    ReqVarsM.URLParam ⟨[(lit "id", lit "42")], false⟩ (lit "id") = lit "42" ∧
    ReqVarsM.URLParam ⟨[(lit "id", lit "42")], false⟩ (lit "nope") = [] :=
  ⟨(urlparam_lookup_spec ⟨[(lit "id", lit "42")], false⟩ (lit "id") (lit "42")).1
      (by decide) (by decide),
   (urlparam_lookup_spec ⟨[(lit "id", lit "42")], false⟩ (lit "nope") (lit "42")).2.1
      (by decide)⟩

/-- Counterexample to claim C5 as stated: with a configured middleware
chain on the router, the handler invoked for a recovery redirect is the
middleware-wrapped redirect handler, not the bare synthesized one. -/
theorem redirect_applies_middleware :
    (serveDecision
        { muxNew [("GET", trieOf [(lit "/foo", 1)])] with
            middleware := [fun h => HF.wrapped 0 h] }
        "GET" (lit "/foo/") 100).invoked =
      HF.wrapped 0 (HF.redirectBase 301 (lit "/foo")) ∧
    HF.wrapped 0 (HF.redirectBase 301 (lit "/foo")) ≠
      HF.redirectBase 301 (lit "/foo") :=
  ⟨rfl, by decide⟩

/-- Claim C5 (amended): the dispatcher's synthesized redirect handler is
wrapped in the router's global middleware chain (first-registered
middleware outermost) before being invoked; only the status code — 301 for
GET, 308 otherwise — and target are fixed by the dispatcher itself. -/
theorem redirect_wraps_global_middleware (p : MuxM) (method : String) (dest : Str) :
    muxRedirect p method dest =
      wrapMiddleware p.middleware
        (HF.redirectBase (if method = "GET" then 301 else 308) dest) := by
  unfold muxRedirect
  exact mwLoop_eq_wrap p.middleware _

/-- Counterexample to claim C6 as stated: when the invoked handler panics,
the dispatcher's `pool.Put` — written after the call, not deferred — never
executes, so an acquired parameter buffer is not returned to the pool on
that exit path. -/
theorem pool_put_skipped_on_panic :
    serveEpilogue (some [(lit "id", lit "42")])
        (fun _ => .error (lit "handler panic")) =
      .error (lit "handler panic") ∧
    poolPutRan (serveEpilogue (some [(lit "id", lit "42")])
        (fun _ => .error (lit "handler panic"))) = false :=
  ⟨rfl, rfl⟩

/-- Claim C6 (amended): the parameter buffer acquired by the lookup is
returned to the pool whenever the invoked handler returns normally, on
every such exit path of dispatch; a handler panic propagates before the
pool return runs. -/
theorem pool_put_on_normal_exit (rv : Option Params)
    (h : Option Params → Except Str Unit) :
    (h rv = .ok () → serveEpilogue rv h = .ok rv.isSome) ∧
    (∀ e, h rv = .error e → serveEpilogue rv h = .error e) := by
  constructor
  · intro hok
    simp [serveEpilogue, hok]
  · intro e he
    simp [serveEpilogue, he]

/-- Witness for claim C6 (amended): with a buffer acquired and a normally
returning handler, the pool return runs. -/
theorem pool_put_on_normal_exit_witness :
    serveEpilogue (some [(lit "id", lit "42")]) (fun _ => .ok ()) = .ok true :=
  (pool_put_on_normal_exit (some [(lit "id", lit "42")]) (fun _ => .ok ())).1 rfl

/-- Claim C10: `find` can miss (nil handler) while still having captured
parameters — here `/user/42` against a trie holding only `/user/:id/detail`
— and dispatch then still attaches those parameters to the request context
handed to the not-found handler. -/
theorem notfound_still_attaches_params :
    findTop 100 (trieOf [(lit "/user/:id/detail", 5)]) (lit "/user/42") =
      (none, some [(lit "id", lit "42")]) ∧
    serveDecision (muxNew [("GET", trieOf [(lit "/user/:id/detail", 5)])])
        "GET" (lit "/user/42") 100 =
      { invoked := HF.default404, attached := some [(lit "id", lit "42")]
        allow := [] } :=
  ⟨rfl, rfl⟩

/-- Claim C4: with trailing-slash recovery enabled, a path longer than one
byte, and the method tree's lookup yielding no handler, dispatch retries
the lookup first on the lowercased path (when that differs) and then on the
lowercased path with its trailing slash toggled; whichever retry succeeds
is answered with the synthesized redirect handler to the corrected path —
status 301 when the method is GET and 308 otherwise, wrapped per the
middleware loop — rather than with the matched handler itself. -/
theorem serve_redirect_on_retry (p : MuxM) (method : String) (path : Str)
    (tree : Node) (fuel : Nat) (rv : Option Params)
    (htree : lookupTree p.trees method = some tree)
    (hflag : p.redirectTrailingSlash = true)
    (hlen : 1 < path.length)
    (hfail : findTop fuel tree path = (none, rv)) :
    ((path.map asciiToLower ≠ path →
        (findTop fuel tree (path.map asciiToLower)).1.isSome = true →
        serveDecision p method path fuel =
          { invoked := muxRedirect p method (path.map asciiToLower)
            attached := rv, allow := [] })
     ∧ ((findTop fuel tree (path.map asciiToLower)).1.isSome = false →
        (findTop fuel tree (toggleSlash (path.map asciiToLower))).1.isSome = true →
        serveDecision p method path fuel =
          { invoked := muxRedirect p method (toggleSlash (path.map asciiToLower))
            attached := rv, allow := [] })
     ∧ ∀ dest, muxRedirect p method dest =
         wrapMiddleware p.middleware
           (HF.redirectBase (if method = "GET" then 301 else 308) dest)) := by
  have hcond : p.redirectTrailingSlash = true ∧ 1 < path.length := ⟨hflag, hlen⟩
  refine ⟨?_, ?_, ?_⟩
  · intro hne hsome
    simp only [serveDecision, htree, hfail, if_pos hcond]
    rw [if_pos ⟨hne, hsome⟩]
  · intro hnone hsome2
    simp only [serveDecision, htree, hfail, if_pos hcond]
    rw [if_neg (fun hand => by rw [hand.2] at hnone; cases hnone), if_pos hsome2]
  · intro dest
    unfold muxRedirect
    exact mwLoop_eq_wrap p.middleware _

/-- Witness for claim C4: registering `/foo` for GET and requesting
`/foo/`, the slash-toggle retry matches and dispatch answers with a 301
redirect to `/foo`. -/
theorem serve_redirect_on_retry_witness :
    serveDecision (muxNew [("GET", trieOf [(lit "/foo", 1)])]) "GET"
        (lit "/foo/") 100 =
      { invoked := HF.redirectBase 301 (lit "/foo"), attached := none
        allow := [] } :=
  (serve_redirect_on_retry (muxNew [("GET", trieOf [(lit "/foo", 1)])]) "GET"
      (lit "/foo/") (trieOf [(lit "/foo", 1)]) 100 none rfl rfl (by decide)
      rfl).2.1 rfl rfl

/-- Witness for claim C5 (amended) at a one-element middleware chain and a
non-GET method: the redirect handler comes back wrapped, with code 308. -/
theorem redirect_wraps_global_middleware_witness :
    muxRedirect { muxNew [] with middleware := [fun h => HF.wrapped 0 h] }
        "POST" (lit "/x") =
      HF.wrapped 0 (HF.redirectBase 308 (lit "/x")) :=
  redirect_wraps_global_middleware
    { muxNew [] with middleware := [fun h => HF.wrapped 0 h] } "POST" (lit "/x")

/-- Witness for claim C8 (amended) at a concrete pattern: `/user/:id` has
one dynamic token and is not rejected for parameter count. -/
theorem countParams_error_iff_witness :
    exceptOk (countParams (lit "/user/:id")) = true := by
  rcases Bool.eq_false_or_eq_true (exceptOk (countParams (lit "/user/:id"))) with ht | hf
  · exact ht
  · have hge := (countParams_error_iff_count_ge_255 (lit "/user/:id")).mp hf
    exact absurd hge (by decide)
